import Mathlib

/-!
Shallow embedding of the request-configuration and provider-adaptation layer
of the go-llm-client repository, together with theorems checking the
natural-language specification against it.

Go strings are modelled as lists of characters (`Str`); Go byte-level
operations in the embedded code act only on ASCII markers, where byte
positions and character positions coincide.  Go maps with string keys are
modelled as association lists whose observable behaviour is key lookup.
Slices passed by reference are modelled by explicit state passing: a function
that mutates a caller-visible slice returns the post-call value of that slice.
-/

/-- Go strings as character lists. -/
abbrev Str := List Char

/-- Embedding of Go `strings.HasPrefix` on character lists. -/
def lstartsWith : Str → Str → Bool
  | [], _ => true
  | _ :: _, [] => false
  | p :: ps, c :: cs => p = c && lstartsWith ps cs

/-- Character class of Go `unicode.IsSpace` restricted to the code points it
recognises in Latin-1 (space, tab, newline, vertical tab, form feed,
carriage return, NEL, NBSP). -/
def goIsSpace (c : Char) : Bool :=
  c = ' ' || c = '\t' || c = '\n' || c = Char.ofNat 11 || c = Char.ofNat 12 ||
  c = '\r' || c = Char.ofNat 133 || c = Char.ofNat 160

/-- Embedding of Go `strings.TrimSpace`. -/
def ltrimSpace (s : Str) : Str :=
  ((s.dropWhile goIsSpace).reverse.dropWhile goIsSpace).reverse

/-- Index of the first occurrence of `pat` in `s` (first position where `pat`
is a prefix of the remaining suffix), as Go's regexp scanning does when the
pattern is a literal. -/
def lfind (pat : Str) : Str → Option Nat
  | [] => if pat = [] then some 0 else none
  | c :: rest =>
    if lstartsWith pat (c :: rest) then some 0
    else (lfind pat rest).map (· + 1)

/-- Concatenation of a list of strings, in order. -/
def strJoin (l : List Str) : Str := l.foldr (· ++ ·) []

theorem lstartsWith_append (p s : Str) : lstartsWith p (p ++ s) = true := by
  induction p with
  | nil => rfl
  | cons c cs ih => simp [lstartsWith, ih]

theorem ldrop_append (a b : Str) : (a ++ b).drop a.length = b := by
  induction a with
  | nil => rfl
  | cons c cs ih => simp [ih]

/-! ## spec package: normalized data model

Source: the `spec` package (`Role`, `Message`, `ClientConfig`, client
options, `RequestConfig`).  `Role` is a Go string type, so it is a `Str`
here; the Go zero value of `Message` has empty role and contents. -/

/-- Go `spec.RoleSystem`. -/
def roleSystem : Str := ("system").data

/-- Go `spec.RoleUser`. -/
def roleUser : Str := ("user").data

/-- Go `spec.RoleAssistant`. -/
def roleAssistant : Str := ("assistant").data

/-- Go `spec.Message`: role, content and optional reasoning content. -/
structure Message where
  role : Str
  content : Str
  reasoningContent : Str
deriving DecidableEq, Repr

/-- The Go zero value of `spec.Message`. -/
def zeroMessage : Message := ⟨[], [], []⟩

/-- Go `spec.NewSystemMessage`. -/
def NewSystemMessage (content : Str) : Message := ⟨roleSystem, content, []⟩

/-- Go `spec.NewUserMessage`. -/
def NewUserMessage (content : Str) : Message := ⟨roleUser, content, []⟩

/-- Go `spec.ClientConfig` (the `HTTPClient` transport field is an external
collaborator and is not modelled). -/
structure ClientConfig where
  apiKey : Str
  apiURL : Str
deriving DecidableEq, Repr

/-- Go `spec.NewClientConfig`: zero-valued key and URL (it only presets the
transport, which is not modelled). -/
def NewClientConfig : ClientConfig := ⟨[], []⟩

/-- Go `spec.ClientOption`. -/
abbrev ClientOption := ClientConfig → ClientConfig

/-- Go `spec.WithAPIKey`. -/
def WithAPIKey (key : Str) : ClientOption := fun c => { c with apiKey := key }

/-- Go `spec.WithAPIURL`. -/
def WithAPIURL (url : Str) : ClientOption := fun c => { c with apiURL := url }

/-- Application of a Go option slice to a config, in order. -/
def applyClientOpts (opts : List ClientOption) (c : ClientConfig) : ClientConfig :=
  opts.foldl (fun cfg o => o cfg) c

/-! ## Wire request bodies

The adapters build `map[string]any` request bodies.  Wire values are the
closed set of value shapes the embedded code ever stores. -/

/-- Values stored in a wire-request body map. -/
inductive WireValue where
  | vStr (s : Str)
  | vBool (b : Bool)
  | vMsgs (ms : List Message)
  | vStreamOptions (includeUsage : Bool)
  | vNum (n : Int)
deriving DecidableEq, Repr

/-- A `map[string]any` request body: association list, later `mapSet` on an
existing key replaces the binding (Go map assignment). -/
abbrev WireBody := List (Str × WireValue)

/-- Go map assignment `m[k] = v`. -/
def mapSet : WireBody → Str → WireValue → WireBody
  | [], k, v => [(k, v)]
  | (k', v') :: rest, k, v =>
    if k' = k then (k, v) :: rest else (k', v') :: mapSet rest k v

/-- Go map lookup `m[k]`. -/
def mapGet : WireBody → Str → Option WireValue
  | [], _ => none
  | (k', v') :: rest, k => if k' = k then some v' else mapGet rest k

theorem mapGet_set_self (m : WireBody) (k : Str) (v : WireValue) :
    mapGet (mapSet m k v) k = some v := by
  induction m with
  | nil => simp [mapSet, mapGet]
  | cons p rest ih =>
    by_cases h : p.1 = k
    · simp [mapSet, h, mapGet]
    · simp [mapSet, h, mapGet, ih]

theorem mapGet_set_ne (m : WireBody) (k k' : Str) (v : WireValue) (h : k ≠ k') :
    mapGet (mapSet m k v) k' = mapGet m k' := by
  induction m with
  | nil => simp [mapSet, mapGet, h]
  | cons p rest ih =>
    by_cases hp : p.1 = k
    · simp [mapSet, hp, mapGet, h]
    · simp [mapSet, hp, mapGet, ih]

/-! ## generic provider adapter

Source: the `generic` package.  `thinkTagRegex` is the Go regular expression
`(?s)<think>.*?</think>\n\n` used with `ReplaceAllString(content, "")`:
repeatedly take the leftmost match (earliest start of `<think>` that is
followed by `</think>\n\n` somewhere later), lazily (ending at the earliest
following `</think>\n\n`), remove it, and continue scanning after the removed
match.  `removeThinkAux` embeds that scan with an explicit fuel argument so
that it is structurally recursive; the fuel `s.length` always suffices
because every step strictly shortens the remaining suffix. -/

namespace Generic

/-- The literal opening tag of `thinkTagRegex`. -/
def openTag : Str := ("<think>").data

/-- The literal closing part of `thinkTagRegex`: the closing tag followed by
the mandatory blank line. -/
def closeTag : Str := ("</think>\n\n").data

/-- One left-to-right pass of `thinkTagRegex.ReplaceAllString(s, "")`,
with fuel. -/
def removeThinkAux : Nat → Str → Str
  | 0, s => s
  | fuel + 1, s =>
    match s with
    | [] => []
    | c :: rest =>
      if lstartsWith openTag (c :: rest) then
        match lfind closeTag ((c :: rest).drop openTag.length) with
        | some k =>
          removeThinkAux fuel ((c :: rest).drop (openTag.length + k + closeTag.length))
        | none => c :: removeThinkAux fuel rest
      else c :: removeThinkAux fuel rest

/-- Go `thinkTagRegex.ReplaceAllString(s, "")`. -/
def removeThink (s : Str) : Str := removeThinkAux s.length s

/-- A string contains a `thinkTagRegex` match somewhere. -/
def hasThinkMatch : Str → Bool
  | [] => false
  | c :: rest =>
    (lstartsWith openTag (c :: rest) &&
      (lfind closeTag ((c :: rest).drop openTag.length)).isSome) ||
    hasThinkMatch rest

/-- The disable-thinking marker the generic adapter appends to the first
system message (`"\n/no_think"` in `Chat`). -/
def noThinkSuffix : Str := ("\n/no_think").data

/-- The in-place mutation step of `Chat` (lines 69-79): find the first
system-role message and append the marker to its content, then stop. -/
def appendNoThinkFirstSystem : List Message → List Message
  | [] => []
  | m :: rest =>
    if m.role = roleSystem then
      { m with content := m.content ++ noThinkSuffix } :: rest
    else m :: appendNoThinkFirstSystem rest

/-- Result of the request-preparation prologue of `Chat`.  `callerMessages`
is the content of the caller's `messages` slice after the call returns
(the Go code writes through `messages[i]`, which is caller-visible);
`wireMessages` is the value stored in `requestBody["messages"]`;
`processedMessages` is the copy made at lines 65-66 (it is copied before the
mutation and never written again, so it retains the original values and is
not what is sent). -/
structure Prepared where
  callerMessages : List Message
  wireMessages : List Message
  processedMessages : List Message
deriving DecidableEq, Repr

/-- Embedding of the message handling of `Chat` (lines 64-89): copy the
slice, then — when thinking is explicitly disabled — append the marker to the
first system message of the original `messages` slice (the loop iterates over
the copy but indexes the original; roles are never mutated, so the first
system index agrees between the two), and finally put the original slice into
the request body. -/
def prepareMessages (thinking : Option Bool) (messages : List Message) : Prepared :=
  let processedMessages := messages
  let messagesAfter :=
    if thinking = some false then appendNoThinkFirstSystem messages else messages
  { callerMessages := messagesAfter
    wireMessages := messagesAfter
    processedMessages := processedMessages }

/-- Errors of the generic adapter's `Chat` response handling. -/
inductive ChatErr where
  | unmarshalFailure
  | noChoices
deriving DecidableEq, Repr

/-- Embedding of the response handling of `Chat` (lines 116-123) once the
body has unmarshalled into a choices list: zero choices is fatal, otherwise
the first choice's message is returned with `thinkTagRegex` cleanup applied
to its content. -/
def extractResponse (choices : List Message) : Except ChatErr Message :=
  match choices with
  | [] => .error .noChoices
  | m :: _ => .ok { m with content := removeThink m.content }

/-- Embedding of `generic.NewClient` (lines 30-51): apply the options to a
fresh config (no default URL), then require a non-empty API key and a
non-empty API URL. -/
inductive ConfigErr where
  | apiKeyRequired
  | apiURLRequired
deriving DecidableEq, Repr

/-- Go `generic.NewClient`. -/
def NewClient (opts : List ClientOption) : Except ConfigErr ClientConfig :=
  let config := applyClientOpts opts NewClientConfig
  if config.apiKey = [] then .error .apiKeyRequired
  else if config.apiURL = [] then .error .apiURLRequired
  else .ok config

end Generic

/-! ## dashscope provider adapter

Source: `providers/dashscope/dashscope.go`.  The per-call `RequestConfig`
fields that `Chat` reads are embedded; option plumbing that only stores
these fields is not re-modelled.  The caller-supplied stream callback
(`config.StreamCallback`, declared in the `spec` package) takes the current
content fragment and either accepts it or returns an error; its possible
statefulness is modelled by indexing it with the number of fragments
delivered so far. -/

namespace Dashscope

/-- The fields of `spec.RequestConfig` that `dashscope.Chat` reads when
building the wire body.  `temperature` carries an opaque wire value: the
adapter only copies it through. -/
structure RequestConfigView where
  thinking : Option Bool
  temperature : Option WireValue
  streaming : Bool
  parameters : WireBody
deriving Repr

/-- Embedding of the request-body assembly of `Chat` (lines 82-106): start
from the caller's extra parameters, translate the tri-state thinking option
into `enable_thinking`, force `model` and `messages`, copy `temperature`
when present, and in the streaming branch force `stream` and
`stream_options`. -/
def buildBody (cfg : RequestConfigView) (modelName : Str) (messages : List Message) :
    WireBody :=
  let body := cfg.parameters
  let body :=
    match cfg.thinking with
    | some b => mapSet body (("enable_thinking").data) (.vBool b)
    | none => body
  let body := mapSet body (("model").data) (.vStr modelName)
  let body := mapSet body (("messages").data) (.vMsgs messages)
  let body :=
    match cfg.temperature with
    | some t => mapSet body (("temperature").data) t
    | none => body
  if cfg.streaming then
    mapSet (mapSet body (("stream").data) (.vBool true))
      (("stream_options").data) (.vStreamOptions true)
  else body

/-- Embedding of the non-streaming choice extraction of `Chat`
(lines 194-197): zero choices leaves the zero-valued message. -/
def extractNonStreaming (choices : List Message) : Message :=
  match choices with
  | [] => zeroMessage
  | m :: _ => m

/-- Go `dashscope.NewClient` (lines 28-50): default URL, options, then the
API-key check.  The error is `ConfigErr.apiKeyRequired`. -/
def defaultURL : Str :=
  ("https://dashscope.aliyuncs.com/compatible-mode/v1/chat/completions").data

/-- Go `dashscope.NewClient`. -/
def NewClient (opts : List ClientOption) : Except Generic.ConfigErr ClientConfig :=
  let config := applyClientOpts opts { NewClientConfig with apiURL := defaultURL }
  if config.apiKey = [] then .error .apiKeyRequired
  else .ok config

/-- The `delta` object of a streaming chunk choice. -/
structure Delta where
  role : Str
  content : Str
deriving DecidableEq, Repr

/-- One element of a streaming chunk's `choices` array (its `finish_reason`
is decoded but never read by the loop and is omitted). -/
structure ChunkChoice where
  delta : Delta
deriving DecidableEq, Repr

/-- Go `dashscopeChunk` as far as the read loop consumes it (the `usage`
object is decoded but never read). -/
structure Chunk where
  choices : List ChunkChoice
deriving DecidableEq, Repr

/-- The SSE data-line marker `"data: "`. -/
def dataMarker : Str := ("data: ").data

/-- The SSE terminal payload `"[DONE]"`. -/
def doneData : Str := ("[DONE]").data

/-- Outcome of the streaming read loop: either the aggregated role and
content at stream end, or the error returned by the caller's stream
callback.  `calls` is the (ghost) trace of content fragments delivered to
the callback, in delivery order. -/
inductive StreamOutcome (E : Type) where
  | ok (role : Str) (content : Str) (calls : List Str)
  | sinkErr (e : E) (calls : List Str)
deriving DecidableEq, Repr

/-- Embedding of the streaming read loop of `Chat` (lines 119-161).
`decode` stands for `json.Unmarshal` into `dashscopeChunk` (an external
collaborator: `none` models an unmarshal error, which the loop skips);
`sink` is the optional stream callback, indexed by the number of fragments
already delivered; `role` and `acc` are the running role and the
`strings.Builder` accumulator; `calls` is the delivered-fragment trace. -/
def processLines (decode : Str → Option Chunk) (sink : Option (Nat → Str → Option E)) :
    List Str → Str → Str → List Str → StreamOutcome E
  | [], role, acc, calls => .ok role acc calls
  | line :: rest, role, acc, calls =>
    if lstartsWith dataMarker line then
      let dataStr := ltrimSpace (line.drop dataMarker.length)
      if dataStr = doneData then .ok role acc calls
      else
        match decode dataStr with
        | none => processLines decode sink rest role acc calls
        | some chunk =>
          match chunk.choices with
          | [] => processLines decode sink rest role acc calls
          | choice :: _ =>
            let role1 := if choice.delta.role ≠ [] then choice.delta.role else role
            if choice.delta.content = [] then
              processLines decode sink rest role1 acc calls
            else
              let acc1 := acc ++ choice.delta.content
              match sink with
              | none => processLines decode sink rest role1 acc1 calls
              | some f =>
                match f calls.length choice.delta.content with
                | some e => .sinkErr e (calls ++ [choice.delta.content])
                | none =>
                  processLines decode sink rest role1 acc1
                    (calls ++ [choice.delta.content])
    else processLines decode sink rest role acc calls

end Dashscope

/-! ## openai provider adapter

Source: the `openai` package. -/

namespace OpenAIAdapter

/-- Go `openai.NewClient`: default URL then the API-key check. -/
def defaultURL : Str := ("https://api.openai.com/v1/chat/completions").data

/-- Go `openai.NewClient`. -/
def NewClient (opts : List ClientOption) : Except Generic.ConfigErr ClientConfig :=
  let config := applyClientOpts opts { NewClientConfig with apiURL := defaultURL }
  if config.apiKey = [] then .error .apiKeyRequired
  else .ok config

/-- Embedding of the openai non-streaming choice extraction (lines 106-109):
zero choices leaves the zero-valued message. -/
def extractNonStreaming (choices : List Message) : Message :=
  match choices with
  | [] => zeroMessage
  | m :: _ => m

end OpenAIAdapter

/-! ## llm facade: client cache and dispatch

Source: the `llm` package (`GetClient` and `Config`).  The process-wide
`clientCache` map and its id-generation are modelled as explicit state: each
successfully constructed client is tagged with a fresh allocation id, and
two resolutions return "the same instance" exactly when they return the same
id.  The double-checked locking collapses in this sequential model; the
observable cache behaviour (lookup, then construct-and-insert on miss,
no insertion on failure) is kept exactly. -/

namespace Facade

/-- The fields of `llm.Config` that `GetClient` reads. -/
structure Config where
  provider : Str
  apiKey : Str
  apiURL : Str
deriving DecidableEq, Repr

/-- Errors of `GetClient`: the unknown-provider error (line 58) or a
construction error forwarded from a provider's `NewClient`. -/
inductive GetClientErr where
  | unknownProvider
  | construction (e : Generic.ConfigErr)
deriving DecidableEq, Repr

/-- Go `fmt.Sprintf("%s|%s|%s", cfg.Provider, cfg.APIURL, cfg.APIKey)`
(line 22). -/
def cacheKeyOf (cfg : Config) : Str :=
  cfg.provider ++ ("|").data ++ cfg.apiURL ++ ("|").data ++ cfg.apiKey

/-- The option slice `GetClient` passes to the provider constructor
(lines 40-45): always the API key, plus the URL when non-empty. -/
def clientOptsOf (cfg : Config) : List ClientOption :=
  [WithAPIKey cfg.apiKey] ++ (if cfg.apiURL = [] then [] else [WithAPIURL cfg.apiURL])

/-- The provider switch of `GetClient` (lines 50-59). -/
def constructFor (cfg : Config) : Except GetClientErr ClientConfig :=
  if cfg.provider = ("dashscope").data then
    (Dashscope.NewClient (clientOptsOf cfg)).mapError .construction
  else if cfg.provider = ("generic").data then
    (Generic.NewClient (clientOptsOf cfg)).mapError .construction
  else if cfg.provider = ("openai").data then
    (OpenAIAdapter.NewClient (clientOptsOf cfg)).mapError .construction
  else .error .unknownProvider

/-- A provider identifier the switch recognises. -/
def isKnownProvider (p : Str) : Bool :=
  p = ("dashscope").data || p = ("generic").data || p = ("openai").data

/-- The process-wide cache state: the `clientCache` map (key to allocation
id of the cached client) and the next fresh allocation id. -/
structure CacheState where
  cache : List (Str × Nat)
  nextId : Nat
deriving DecidableEq, Repr

/-- The initial state: empty `clientCache`. -/
def initState : CacheState := ⟨[], 0⟩

/-- Lookup in the modelled `clientCache`. -/
def cacheLookup : List (Str × Nat) → Str → Option Nat
  | [], _ => none
  | (k', v) :: rest, k => if k' = k then some v else cacheLookup rest k

/-- Go `llm.GetClient`: look the composite key up; on a miss run the
provider switch, and on construction success insert the freshly allocated
client under the key.  The returned `Nat` is the allocation id of the
resolved client instance; the state is returned unchanged on every error
path. -/
def GetClient (cfg : Config) (st : CacheState) :
    Except GetClientErr Nat × CacheState :=
  let key := cacheKeyOf cfg
  match cacheLookup st.cache key with
  | some id => (.ok id, st)
  | none =>
    match constructFor cfg with
    | .error e => (.error e, st)
    | .ok _ => (.ok st.nextId, ⟨st.cache ++ [(key, st.nextId)], st.nextId + 1⟩)

/-- Well-formedness of a cache state: every cached id is below the fresh-id
counter, and no two distinct keys share an id.  Both hold in every state
reachable from `initState`. -/
def WF (st : CacheState) : Prop :=
  (∀ p ∈ st.cache, p.2 < st.nextId) ∧
  (∀ p ∈ st.cache, ∀ q ∈ st.cache, p.2 = q.2 → p.1 = q.1)

instance (st : CacheState) : Decidable (WF st) := by
  unfold WF; infer_instance

theorem cacheLookup_mem {c : List (Str × Nat)} {k : Str} {v : Nat}
    (h : cacheLookup c k = some v) : (k, v) ∈ c := by
  induction c with
  | nil => simp [cacheLookup] at h
  | cons p rest ih =>
    by_cases hp : p.1 = k
    · simp [cacheLookup, hp] at h
      cases p
      simp_all
    · simp [cacheLookup, hp] at h
      right
      exact ih h

theorem cacheLookup_append_right {c : List (Str × Nat)} {k : Str}
    (h : cacheLookup c k = none) (tail : List (Str × Nat)) :
    cacheLookup (c ++ tail) k = cacheLookup tail k := by
  induction c with
  | nil => rfl
  | cons p rest ih =>
    by_cases hp : p.1 = k
    · simp [cacheLookup, hp] at h
    · simp [cacheLookup, hp] at h ⊢
      exact ih h

end Facade

deriving instance DecidableEq for Except

/-! ## Claim theorems -/

namespace Generic

theorem removeThinkAux_of_no_match :
    ∀ (fuel : Nat) (s : Str), hasThinkMatch s = false → removeThinkAux fuel s = s := by
  intro fuel
  induction fuel with
  | zero => intro s _; rfl
  | succ n ih =>
    intro s h
    cases s with
    | nil => rfl
    | cons c rest =>
      simp only [hasThinkMatch, Bool.or_eq_false_iff, Bool.and_eq_false_iff] at h
      obtain ⟨h1, h2⟩ := h
      cases hsw : lstartsWith openTag (c :: rest) with
      | false => simp [removeThinkAux, hsw, ih rest h2]
      | true =>
        have hfind : lfind closeTag ((c :: rest).drop openTag.length) = none := by
          rcases h1 with h1 | h1
          · rw [hsw] at h1; cases h1
          · exact Option.not_isSome_iff_eq_none.mp (by simp [h1])
        simp [removeThinkAux, hsw, hfind, ih rest h2]

end Generic

/-- The caller's message list in the generic no-think scenario. -/
def helpfulSystemMessages : List Message :=
  [NewSystemMessage (("You are a helpful assistant.").data),
   NewUserMessage (("Hello").data)]

/-- C1: the claim says the disable-marker suffix is appended only to the
adapter's copy of the messages and the caller-supplied sequence is unchanged
on return.  The code does the opposite: `Chat` makes the copy but then
writes `messages[i].Content += "\n/no_think"` through the caller's slice
(and sends that mutated slice), so on the failing input the caller's
sequence differs after the call while the unsent copy retains the original
values. -/
theorem c1_code_mutates_caller_messages :
    (Generic.prepareMessages (some false) helpfulSystemMessages).callerMessages
        ≠ helpfulSystemMessages
      ∧ (Generic.prepareMessages (some false) helpfulSystemMessages).callerMessages
        = [NewSystemMessage (("You are a helpful assistant.\n/no_think").data),
           NewUserMessage (("Hello").data)]
      ∧ (Generic.prepareMessages (some false) helpfulSystemMessages).processedMessages
        = helpfulSystemMessages := by
  refine ⟨by decide, by decide, by decide⟩

/-- An input on which one cleanup pass splices the surrounding text into a
new reasoning block. -/
def spliceStr : Str := ("<th<think>a</think>\n\nink>b</think>\n\n").data

/-- C2 counterexample: the cleanup transformation is not idempotent.  On
`spliceStr` one pass removes the inner block and thereby glues `<th` to
`ink>b</think>\n\n`, forming a fresh block that only a second pass
removes. -/
theorem c2_cleanup_not_idempotent_counterexample :
    Generic.removeThink (Generic.removeThink spliceStr)
      ≠ Generic.removeThink spliceStr := by
  decide

/-- C2 amended: applying the cleanup to already-clean content (content with
no `<think>...</think>` block followed by a blank line) leaves the content
unchanged; full idempotence fails because removing a block can splice the
surrounding text into a new block. -/
theorem c2_cleanup_clean_content_unchanged (s : Str)
    (h : Generic.hasThinkMatch s = false) : Generic.removeThink s = s :=
  Generic.removeThinkAux_of_no_match s.length s h

/-- Witness for `c2_cleanup_clean_content_unchanged` at a concrete clean
string. -/
theorem c2_cleanup_clean_content_unchanged_witness :
    Generic.hasThinkMatch (("Final answer").data) = false ∧
      Generic.removeThink (("Final answer").data) = ("Final answer").data :=
  ⟨by decide, c2_cleanup_clean_content_unchanged (("Final answer").data) (by decide)⟩

/-- C3: generic adapter with thinking explicitly disabled.  The outgoing
wire message list carries the system message with the disable marker
appended, and a response whose assistant content is
`"<think>reasoning</think>\n\nFinal answer"` comes back to the caller with
content `"Final answer"`. -/
theorem c3_generic_no_think_scenario :
    (Generic.prepareMessages (some false) helpfulSystemMessages).wireMessages
        = [NewSystemMessage (("You are a helpful assistant.\n/no_think").data),
           NewUserMessage (("Hello").data)]
      ∧ Generic.extractResponse
          [⟨roleAssistant, ("<think>reasoning</think>\n\nFinal answer").data, []⟩]
        = .ok ⟨roleAssistant, ("Final answer").data, []⟩ := by
  refine ⟨by decide, by decide⟩

/-- C5: on a parsed non-streaming response with zero choices the generic
adapter fails with its protocol error while the dashscope and openai
adapters succeed with the zero-valued (empty-content) message. -/
theorem c5_zero_choices_divergence :
    Generic.extractResponse [] = .error Generic.ChatErr.noChoices
      ∧ Dashscope.extractNonStreaming [] = zeroMessage
      ∧ OpenAIAdapter.extractNonStreaming [] = zeroMessage
      ∧ zeroMessage.content = [] := by
  refine ⟨rfl, rfl, rfl, rfl⟩

/-! ### C6: construction errors -/

/-- The closed set of known provider identifiers, one constructor per
`NewClient` entry point. -/
inductive Provider where
  | dashscope
  | generic
  | openai
deriving DecidableEq, Repr

/-- The `NewClient` entry point of each known provider. -/
def NewClientFor : Provider → List ClientOption → Except Generic.ConfigErr ClientConfig
  | .dashscope => Dashscope.NewClient
  | .generic => Generic.NewClient
  | .openai => OpenAIAdapter.NewClient

/-- The option slice for constructing with a key and an optional base URL
(empty URL means the `WithAPIURL` option is not passed, as in the facade). -/
def constructionOpts (key url : Str) : List ClientOption :=
  [WithAPIKey key] ++ (if url = [] then [] else [WithAPIURL url])

/-- C6: for every known provider, construction with a non-empty API key
(and, for the generic provider, a base URL) succeeds; an empty API key
fails with the key configuration error regardless of provider; and the
generic provider with a missing base URL never constructs successfully. -/
theorem c6_construction_config_errors (p : Provider) (key url : Str) :
    (key ≠ [] → (p = .generic → url ≠ []) →
      ∃ c, NewClientFor p (constructionOpts key url) = .ok c)
      ∧ (key = [] →
        NewClientFor p (constructionOpts key url) = .error .apiKeyRequired)
      ∧ (p = .generic → url = [] →
        ∀ c, NewClientFor p (constructionOpts key url) ≠ .ok c) := by
  have happly : ∀ (u : Str) (c : ClientConfig),
      applyClientOpts (constructionOpts key u) c
        = if u = [] then { c with apiKey := key }
          else { apiKey := key, apiURL := u } := by
    intro u c
    by_cases hu : u = [] <;>
      simp [constructionOpts, applyClientOpts, WithAPIKey, WithAPIURL, hu]
  refine ⟨?_, ?_, ?_⟩
  · intro hk hgen
    cases p with
    | dashscope =>
      by_cases hu : url = [] <;>
        simp [NewClientFor, Dashscope.NewClient, happly, hk, hu]
    | generic =>
      have hu : url ≠ [] := hgen rfl
      simp [NewClientFor, Generic.NewClient, happly, hk, hu, NewClientConfig]
    | openai =>
      by_cases hu : url = [] <;>
        simp [NewClientFor, OpenAIAdapter.NewClient, happly, hk, hu]
  · intro hk
    subst hk
    cases p with
    | dashscope =>
      by_cases hu : url = [] <;>
        simp [NewClientFor, Dashscope.NewClient, happly, hu]
    | generic =>
      by_cases hu : url = [] <;>
        simp [NewClientFor, Generic.NewClient, happly, hu]
    | openai =>
      by_cases hu : url = [] <;>
        simp [NewClientFor, OpenAIAdapter.NewClient, happly, hu]
  · intro hp hu c
    subst hp
    subst hu
    by_cases hk : key = []
    · subst hk
      simp [NewClientFor, Generic.NewClient, happly, NewClientConfig]
    · simp [NewClientFor, Generic.NewClient, happly, hk, NewClientConfig]

/-- Witness for `c6_construction_config_errors`: the generic provider with a
non-empty key and URL constructs, with an empty key it fails, and with a
missing URL it never constructs. -/
theorem c6_construction_config_errors_witness :
    (∃ c, NewClientFor .generic (constructionOpts (("k").data) (("u").data)) = .ok c)
      ∧ NewClientFor .generic (constructionOpts [] (("u").data))
        = .error .apiKeyRequired
      ∧ ∀ c, NewClientFor .generic (constructionOpts (("k").data) []) ≠ .ok c :=
  ⟨(c6_construction_config_errors .generic (("k").data) (("u").data)).1
      (by decide) (fun _ => by decide),
   (c6_construction_config_errors .generic [] (("u").data)).2.1 rfl,
   (c6_construction_config_errors .generic (("k").data) []).2.2 rfl rfl⟩

/-! ### C7: dashscope thinking field -/

/-- The dashscope wire field for the thinking option. -/
def enableThinkingKey : Str := ("enable_thinking").data

/-- A request config with thinking unset but the thinking wire field smuggled
in through the open extra-parameters map. -/
def c7PoisonedCfg : Dashscope.RequestConfigView :=
  ⟨none, none, false, [(enableThinkingKey, .vBool true)]⟩

/-- C7 counterexample: with the thinking option unset the wire body does not
always omit the thinking field — the body starts from the caller's open
extra-parameters map, so a caller-supplied `enable_thinking` entry survives
untouched. -/
theorem c7_unset_thinking_not_omitted_counterexample :
    mapGet (Dashscope.buildBody c7PoisonedCfg (("qwen-plus").data) [])
        enableThinkingKey
      = some (.vBool true) := by
  decide

/-- C7 amended: if the tri-state thinking option is set, the wire body
carries `enable_thinking` with exactly that boolean value (overriding any
extra-parameter entry); if it is unset and the caller's extra parameters do
not themselves contain `enable_thinking`, the wire body omits the field. -/
theorem c7_thinking_field_mapping (cfg : Dashscope.RequestConfigView)
    (modelName : Str) (msgs : List Message) (b : Bool) :
    (cfg.thinking = some b →
      mapGet (Dashscope.buildBody cfg modelName msgs) enableThinkingKey
        = some (.vBool b))
      ∧ (cfg.thinking = none → mapGet cfg.parameters enableThinkingKey = none →
        mapGet (Dashscope.buildBody cfg modelName msgs) enableThinkingKey
          = none) := by
  have h1 : (("model").data : Str) ≠ enableThinkingKey := by decide
  have h2 : (("messages").data : Str) ≠ enableThinkingKey := by decide
  have h3 : (("temperature").data : Str) ≠ enableThinkingKey := by decide
  have h4 : (("stream").data : Str) ≠ enableThinkingKey := by decide
  have h5 : (("stream_options").data : Str) ≠ enableThinkingKey := by decide
  constructor
  · intro hb
    simp only [Dashscope.buildBody, hb]
    cases cfg.temperature <;> cases cfg.streaming <;>
      simp [mapGet_set_ne, mapGet_set_self, h1, h2, h3, h4, h5, enableThinkingKey]
  · intro hb hparams
    simp only [Dashscope.buildBody, hb]
    cases cfg.temperature <;> cases cfg.streaming <;>
      simpa [mapGet_set_ne, h1, h2, h3, h4, h5, enableThinkingKey] using hparams

/-- A request config with thinking explicitly disabled and clean extra
parameters. -/
def c7DisabledCfg : Dashscope.RequestConfigView := ⟨some false, none, false, []⟩

/-- A request config with thinking unset and clean extra parameters. -/
def c7UnsetCfg : Dashscope.RequestConfigView := ⟨none, none, false, []⟩

/-- Witness for `c7_thinking_field_mapping`: with thinking explicitly
disabled the field is `false`; with thinking unset and clean extra
parameters the field is absent. -/
theorem c7_thinking_field_mapping_witness :
    mapGet (Dashscope.buildBody c7DisabledCfg (("qwen-plus").data) [])
        enableThinkingKey
      = some (.vBool false)
      ∧ mapGet (Dashscope.buildBody c7UnsetCfg (("qwen-plus").data) [])
        enableThinkingKey
      = none :=
  ⟨(c7_thinking_field_mapping c7DisabledCfg (("qwen-plus").data) [] false).1 rfl,
   (c7_thinking_field_mapping c7UnsetCfg (("qwen-plus").data) [] false).2 rfl rfl⟩

/-! ### C4, C9, C10: streaming read loop -/

namespace Dashscope

/-- One input line of a streaming response, classified by how the read loop
treats it: a line without the SSE data marker, a data line whose payload
fails to decode as a chunk, or a data line carrying a chunk whose first
choice has content `frag` (and no role update). -/
inductive SSEItem where
  | nonData (line : Str)
  | malformed (payload : Str)
  | chunkLine (payload frag : Str)
deriving DecidableEq, Repr

/-- The wire line of an item. -/
def renderItem : SSEItem → Str
  | .nonData l => l
  | .malformed p => dataMarker ++ p
  | .chunkLine p _ => dataMarker ++ p

/-- The content fragment an item contributes, if any. -/
def itemFrag : SSEItem → Option Str
  | .chunkLine _ f => some f
  | _ => none

/-- The content fragments of an item list, in order. -/
def fragsOf (items : List SSEItem) : List Str := items.filterMap itemFrag

/-- Soundness of an item's classification with respect to the decoder:
`nonData` lines lack the marker; `malformed` payloads neither decode nor
equal the terminal marker; `chunkLine` payloads decode to a chunk whose
first choice is a non-empty content fragment with no role update. -/
def itemOKb (decode : Str → Option Chunk) : SSEItem → Bool
  | .nonData l => !lstartsWith dataMarker l
  | .malformed p =>
    decide (ltrimSpace p ≠ doneData) && decide (decode (ltrimSpace p) = none)
  | .chunkLine p f =>
    decide (ltrimSpace p ≠ doneData) && decide (f ≠ []) &&
      decide (decode (ltrimSpace p) = some ⟨[⟨⟨[], f⟩⟩]⟩)

theorem processLines_render_append {E : Type} (decode : Str → Option Chunk)
    (sink : Nat → Str → Option E) (items : List SSEItem)
    (hitems : ∀ it ∈ items, itemOKb decode it = true) (tail : List Str) :
    ∀ (role acc : Str) (calls : List Str),
      (∀ i s, i < (fragsOf items).length → sink (calls.length + i) s = none) →
      processLines decode (some sink) (items.map renderItem ++ tail) role acc calls
        = processLines decode (some sink) tail role (acc ++ strJoin (fragsOf items))
            (calls ++ fragsOf items) := by
  induction items with
  | nil =>
    intro role acc calls _
    simp [fragsOf, strJoin]
  | cons it rest ih =>
    intro role acc calls hsink
    have hit : itemOKb decode it = true := hitems it (by simp)
    have hrest : ∀ x ∈ rest, itemOKb decode x = true :=
      fun x hx => hitems x (by simp [hx])
    cases it with
    | nonData l =>
      have hl : lstartsWith dataMarker l = false := by
        simpa [itemOKb] using hit
      have hfrags : fragsOf (SSEItem.nonData l :: rest) = fragsOf rest := by
        simp [fragsOf, itemFrag]
      rw [hfrags] at hsink ⊢
      simp only [List.map_cons, List.cons_append, renderItem]
      rw [processLines]
      simp only [hl, Bool.false_eq_true, if_false]
      exact ih hrest role acc calls hsink
    | malformed p =>
      have hdone : ltrimSpace p ≠ doneData := by
        have := hit
        simp [itemOKb] at this
        exact this.1
      have hdec : decode (ltrimSpace p) = none := by
        have := hit
        simp [itemOKb] at this
        exact this.2
      have hfrags : fragsOf (SSEItem.malformed p :: rest) = fragsOf rest := by
        simp [fragsOf, itemFrag]
      rw [hfrags] at hsink ⊢
      simp only [List.map_cons, List.cons_append, renderItem]
      rw [processLines]
      simp [lstartsWith_append, ldrop_append, hdone, hdec]
      exact ih hrest role acc calls hsink
    | chunkLine p fr =>
      have h3 := hit
      simp only [itemOKb, Bool.and_eq_true, decide_eq_true_eq] at h3
      obtain ⟨⟨hdone, hfr⟩, hdec⟩ := h3
      have hfrags : fragsOf (SSEItem.chunkLine p fr :: rest) = fr :: fragsOf rest := by
        simp [fragsOf, itemFrag]
      rw [hfrags] at hsink ⊢
      have hsink0 : sink calls.length fr = none := by
        have := hsink 0 fr (by simp)
        simpa using this
      simp only [List.map_cons, List.cons_append, renderItem]
      rw [processLines]
      simp [lstartsWith_append, ldrop_append, hdone, hdec, hfr, hsink0]
      have hsink' : ∀ i s, i < (fragsOf rest).length →
          sink ((calls ++ [fr]).length + i) s = none := by
        intro i s hi
        have := hsink (i + 1) s (by simpa using Nat.succ_lt_succ hi)
        simpa [Nat.add_assoc, Nat.add_comm 1 i] using this
      have := ih hrest role (acc ++ fr) (calls ++ [fr]) hsink'
      rw [this]
      simp [strJoin]

end Dashscope

/-- The terminal SSE line `"data: [DONE]"`. -/
def doneLine : Str := ("data: [DONE]").data

theorem doneLine_eq : doneLine = Dashscope.dataMarker ++ Dashscope.doneData := by
  decide

/-- C4: for a streaming response made of well-classified lines (chunk lines
carrying fragments, interleaved non-data lines and malformed data lines)
followed by the `[DONE]` marker and arbitrary further lines, the loop ends
at the marker and returns the aggregated result: the sink-invocation trace
is exactly the fragment list in wire order, and the aggregated content is
the concatenation of the fragments in order; the skipped lines contribute
nothing and raise no error, and the lines after `[DONE]` are never read. -/
theorem c4_streaming_order {E : Type} (decode : Str → Option Dashscope.Chunk)
    (sink : Nat → Str → Option E) (items : List Dashscope.SSEItem)
    (junk : List Str)
    (hitems : ∀ it ∈ items, Dashscope.itemOKb decode it = true)
    (hsink : ∀ n s, sink n s = none) :
    Dashscope.processLines decode (some sink)
        (items.map Dashscope.renderItem ++ doneLine :: junk) roleAssistant [] []
      = .ok roleAssistant (strJoin (Dashscope.fragsOf items))
          (Dashscope.fragsOf items) := by
  rw [Dashscope.processLines_render_append decode sink items hitems
    (doneLine :: junk) roleAssistant [] [] (fun i s _ => hsink ([].length + i) s)]
  rw [doneLine_eq, Dashscope.processLines]
  simp [lstartsWith_append, ldrop_append,
    (by decide : ltrimSpace Dashscope.doneData = Dashscope.doneData)]

/-- C9: if the stream sink rejects a delivered fragment, the loop returns
that exact error at once: the trace ends with the rejected fragment (no
further sink invocations), the lines after the offending chunk are never
read (the result is the same for every such suffix), and no aggregated
result is produced. -/
theorem c9_sink_error_aborts {E : Type} (decode : Str → Option Dashscope.Chunk)
    (sink : Nat → Str → Option E) (items : List Dashscope.SSEItem)
    (p fr : Str) (e : E) (rest : List Str)
    (hitems : ∀ it ∈ items, Dashscope.itemOKb decode it = true)
    (hchunk : Dashscope.itemOKb decode (.chunkLine p fr) = true)
    (hbefore : ∀ i s, i < (Dashscope.fragsOf items).length → sink i s = none)
    (herr : sink (Dashscope.fragsOf items).length fr = some e) :
    Dashscope.processLines decode (some sink)
        (items.map Dashscope.renderItem ++ (Dashscope.dataMarker ++ p) :: rest)
        roleAssistant [] []
      = .sinkErr e (Dashscope.fragsOf items ++ [fr]) := by
  have h3 := hchunk
  simp only [Dashscope.itemOKb, Bool.and_eq_true, decide_eq_true_eq] at h3
  obtain ⟨⟨hdone, hfr⟩, hdec⟩ := h3
  rw [Dashscope.processLines_render_append decode sink items hitems
    ((Dashscope.dataMarker ++ p) :: rest) roleAssistant [] []
    (fun i s hi => by simpa using hbefore i s hi)]
  rw [Dashscope.processLines]
  simp [lstartsWith_append, ldrop_append, hdone, hdec, hfr, herr]

/-- C10: a well-formed chunk line whose `choices` array is empty is skipped
safely: it neither contributes content nor invokes the sink, and the loop
simply continues with the remaining lines. -/
theorem c10_empty_choices_skipped {E : Type} (decode : Str → Option Dashscope.Chunk)
    (sinkOpt : Option (Nat → Str → Option E)) (p : Str) (rest : List Str)
    (role acc : Str) (calls : List Str)
    (hdec : decode (ltrimSpace p) = some ⟨[]⟩)
    (hdone : ltrimSpace p ≠ Dashscope.doneData) :
    Dashscope.processLines decode sinkOpt
        ((Dashscope.dataMarker ++ p) :: rest) role acc calls
      = Dashscope.processLines decode sinkOpt rest role acc calls := by
  rw [Dashscope.processLines]
  simp [lstartsWith_append, ldrop_append, hdone, hdec]

/-! Concrete streaming material for the witnesses: the scenario payloads of
the specification (JSON braces written with escape codes), a decoder that
stands for `json.Unmarshal` on exactly those payloads, and concrete
sinks. -/

/-- The scenario chunk payload carrying fragment `"Hel"`. -/
def chunkHelData : Str :=
  ("\x7b\"choices\":[\x7b\"delta\":\x7b\"content\":\"Hel\"\x7d\x7d]\x7d").data

/-- The scenario chunk payload carrying fragment `"lo"`. -/
def chunkLoData : Str :=
  ("\x7b\"choices\":[\x7b\"delta\":\x7b\"content\":\"lo\"\x7d\x7d]\x7d").data

/-- A usage-only final event: well-formed, empty `choices`. -/
def usageOnlyData : Str :=
  ("\x7b\"choices\":[],\"usage\":\x7b\"total_tokens\":5\x7d\x7d").data

/-- The decoding of the three scenario payloads, as `json.Unmarshal` into
`dashscopeChunk` produces it; everything else is a decode failure. -/
def demoDecode : Str → Option Dashscope.Chunk := fun s =>
  if s = chunkHelData then some ⟨[⟨⟨[], ("Hel").data⟩⟩]⟩
  else if s = chunkLoData then some ⟨[⟨⟨[], ("lo").data⟩⟩]⟩
  else if s = usageOnlyData then some ⟨[]⟩
  else none

/-- A sink that accepts every fragment. -/
def demoNoneSink : Nat → Str → Option Unit := fun _ _ => none

/-- A sink that accepts the first fragment and rejects the second. -/
def demoFailSink : Nat → Str → Option Nat := fun n _ =>
  if n = 0 then none else some 7

/-- The scenario item list: a non-data keep-alive line, the `"Hel"` chunk, a
malformed data line, and the `"lo"` chunk. -/
def demoItems : List Dashscope.SSEItem :=
  [.nonData ((": keep-alive").data),
   .chunkLine chunkHelData (("Hel").data),
   .malformed (("oops").data),
   .chunkLine chunkLoData (("lo").data)]

/-- Witness for `c4_streaming_order`: the specification's streaming
scenario.  The sink trace is `"Hel"` then `"lo"`, the aggregated content is
`"Hello"`, and the line after `[DONE]` is never read. -/
theorem c4_streaming_order_witness :
    Dashscope.processLines demoDecode (some demoNoneSink)
        (demoItems.map Dashscope.renderItem ++ doneLine :: [("data: unread").data])
        roleAssistant [] []
      = .ok roleAssistant (("Hello").data) [("Hel").data, ("lo").data] := by
  have h := c4_streaming_order demoDecode demoNoneSink demoItems
    [("data: unread").data] (by decide) (fun n s => rfl)
  rw [h]
  decide

/-- Witness for `c9_sink_error_aborts`: the sink accepts `"Hel"` and rejects
`"lo"` with error `7`; the loop returns error `7` with trace
`["Hel", "lo"]` and never reads the following line. -/
theorem c9_sink_error_aborts_witness :
    Dashscope.processLines demoDecode (some demoFailSink)
        ([Dashscope.SSEItem.chunkLine chunkHelData (("Hel").data)].map
            Dashscope.renderItem
          ++ (Dashscope.dataMarker ++ chunkLoData) :: [("data: never-read").data])
        roleAssistant [] []
      = .sinkErr 7 [("Hel").data, ("lo").data] := by
  have h := c9_sink_error_aborts demoDecode demoFailSink
    [Dashscope.SSEItem.chunkLine chunkHelData (("Hel").data)]
    chunkLoData (("lo").data) 7 [("data: never-read").data]
    (by decide) (by decide)
    (fun i s hi => by
      have h1 : i < 1 := by
        simpa [Dashscope.fragsOf, Dashscope.itemFrag] using hi
      have h0 : i = 0 := Nat.lt_one_iff.mp h1
      simp [demoFailSink, h0])
    (by decide)
  rw [h]
  decide

/-- Witness for `c10_empty_choices_skipped`: the usage-only final event is
skipped and the loop continues with the `[DONE]` line. -/
theorem c10_empty_choices_skipped_witness :
    Dashscope.processLines demoDecode (some demoNoneSink)
        ((Dashscope.dataMarker ++ usageOnlyData) :: [doneLine]) roleAssistant [] []
      = Dashscope.processLines demoDecode (some demoNoneSink) [doneLine]
          roleAssistant [] [] :=
  c10_empty_choices_skipped demoDecode (some demoNoneSink) usageOnlyData [doneLine]
    roleAssistant [] [] (by decide) (by decide)

/-! ### C8: facade cache identity -/

namespace Facade

/-- Two configs that differ in exactly one of the three cache-key
coordinates. -/
def differOne (a b : Config) : Prop :=
  (a.provider ≠ b.provider ∧ a.apiKey = b.apiKey ∧ a.apiURL = b.apiURL) ∨
  (a.provider = b.provider ∧ a.apiKey ≠ b.apiKey ∧ a.apiURL = b.apiURL) ∨
  (a.provider = b.provider ∧ a.apiKey = b.apiKey ∧ a.apiURL ≠ b.apiURL)

instance (a b : Config) : Decidable (differOne a b) := by
  unfold differOne; infer_instance

theorem cacheLookup_append_left {c : List (Str × Nat)} {k : Str} {v : Nat}
    (h : cacheLookup c k = some v) (tail : List (Str × Nat)) :
    cacheLookup (c ++ tail) k = some v := by
  induction c with
  | nil => simp [cacheLookup] at h
  | cons p rest ih =>
    by_cases hp : p.1 = k
    · simp [cacheLookup, hp] at h ⊢
      exact h
    · simp [cacheLookup, hp] at h ⊢
      exact ih h

theorem cacheKeyOf_ne_of_differOne {a b : Config} (h : differOne a b) :
    cacheKeyOf a ≠ cacheKeyOf b := by
  intro he
  simp only [cacheKeyOf] at he
  rcases h with ⟨hp, hk, hu⟩ | ⟨hp, hk, hu⟩ | ⟨hp, hk, hu⟩
  · rw [hk, hu] at he
    exact hp (List.append_cancel_right (List.append_cancel_right
      (List.append_cancel_right (List.append_cancel_right he))))
  · rw [hp, hu] at he
    exact hk (List.append_cancel_left he)
  · rw [hp, hk] at he
    exact hu (List.append_cancel_left (List.append_cancel_right
      (List.append_cancel_right he)))

end Facade

/-- A config whose composite cache key collides with the one below: known
provider `dashscope`, base URL `a|b`, key `c`. -/
def c8CfgA : Facade.Config := ⟨("dashscope").data, ("c").data, ("a|b").data⟩

/-- An unknown-provider config with the same composite cache key as
`c8CfgA`: provider `dashscope|a`, base URL `b`, key `c`. -/
def c8CfgU : Facade.Config := ⟨("dashscope|a").data, ("c").data, ("b").data⟩

/-- C8 counterexample: an unknown-provider resolution does not always fail.
After resolving `c8CfgA` (provider `dashscope`, URL `a|b`, key `c`), the
composite key `dashscope|a|b|c` is cached, and a resolution with the
unknown provider `dashscope|a` (URL `b`, key `c`) builds the same composite
key, hits the cache before the provider switch runs, and succeeds with the
cached client. -/
theorem c8_unknown_provider_cache_hit_counterexample :
    Facade.isKnownProvider c8CfgU.provider = false
      ∧ (Facade.GetClient c8CfgA Facade.initState).1 = .ok 0
      ∧ Facade.GetClient c8CfgU (Facade.GetClient c8CfgA Facade.initState).2
        = (.ok 0, (Facade.GetClient c8CfgA Facade.initState).2) := by
  refine ⟨by decide, by decide, by decide⟩

/-- C8 amended: over a well-formed cache state, a repeated resolution with
the identical triple returns the same client instance and state; two
successful resolutions whose triples differ in exactly one coordinate
return distinct instances; and a resolution with an unknown provider whose
composite key is not already present in the cache fails with the
unknown-provider error and leaves the cache unchanged (without the
key-absence proviso this fails: composite keys are joined with `|` and can
collide, see the counterexample). -/
theorem c8_cache_identity (st : Facade.CacheState) (cfg1 cfg2 cfgU : Facade.Config)
    (i1 i2 : Nat) (st1 st2 : Facade.CacheState)
    (hWF : Facade.WF st)
    (h1 : Facade.GetClient cfg1 st = (.ok i1, st1))
    (h2 : Facade.GetClient cfg2 st1 = (.ok i2, st2)) :
    (cfg2 = cfg1 → i2 = i1 ∧ st2 = st1)
      ∧ (Facade.differOne cfg1 cfg2 → i1 ≠ i2)
      ∧ (Facade.isKnownProvider cfgU.provider = false →
        Facade.cacheLookup st.cache (Facade.cacheKeyOf cfgU) = none →
        Facade.GetClient cfgU st = (.error .unknownProvider, st)) := by
  refine ⟨?_, ?_, ?_⟩
  · rintro rfl
    rw [Facade.GetClient] at h1 h2
    cases hl1 : Facade.cacheLookup st.cache (Facade.cacheKeyOf cfg2) with
    | some id =>
      rw [hl1] at h1
      simp only [Prod.mk.injEq, Except.ok.injEq] at h1
      obtain ⟨rfl, rfl⟩ := h1
      rw [hl1] at h2
      simp only [Prod.mk.injEq, Except.ok.injEq] at h2
      exact ⟨h2.1.symm ▸ rfl, h2.2.symm⟩
    | none =>
      rw [hl1] at h1
      cases hc1 : Facade.constructFor cfg2 with
      | error e => rw [hc1] at h1; simp at h1
      | ok c =>
        rw [hc1] at h1
        simp only [Prod.mk.injEq, Except.ok.injEq] at h1
        obtain ⟨rfl, rfl⟩ := h1
        have hl1' : Facade.cacheLookup
            (st.cache ++ [(Facade.cacheKeyOf cfg2, st.nextId)]) (Facade.cacheKeyOf cfg2)
            = some st.nextId := by
          rw [Facade.cacheLookup_append_right hl1]
          simp [Facade.cacheLookup]
        rw [hl1'] at h2
        simp only [Prod.mk.injEq, Except.ok.injEq] at h2
        exact ⟨h2.1.symm, h2.2.symm⟩
  · intro hdiff
    have hkeyne := Facade.cacheKeyOf_ne_of_differOne hdiff
    rw [Facade.GetClient] at h1 h2
    cases hl1 : Facade.cacheLookup st.cache (Facade.cacheKeyOf cfg1) with
    | some id =>
      rw [hl1] at h1
      simp only [Prod.mk.injEq, Except.ok.injEq] at h1
      obtain ⟨rfl, rfl⟩ := h1
      cases hl2 : Facade.cacheLookup st.cache (Facade.cacheKeyOf cfg2) with
      | some id2 =>
        rw [hl2] at h2
        simp only [Prod.mk.injEq, Except.ok.injEq] at h2
        obtain ⟨rfl, rfl⟩ := h2
        intro heq
        exact hkeyne (hWF.2 _ (Facade.cacheLookup_mem hl1) _
          (Facade.cacheLookup_mem hl2) heq)
      | none =>
        rw [hl2] at h2
        cases hc2 : Facade.constructFor cfg2 with
        | error e => rw [hc2] at h2; simp at h2
        | ok c =>
          rw [hc2] at h2
          simp only [Prod.mk.injEq, Except.ok.injEq] at h2
          obtain ⟨rfl, rfl⟩ := h2
          have := hWF.1 _ (Facade.cacheLookup_mem hl1)
          omega
    | none =>
      rw [hl1] at h1
      cases hc1 : Facade.constructFor cfg1 with
      | error e => rw [hc1] at h1; simp at h1
      | ok c =>
        rw [hc1] at h1
        simp only [Prod.mk.injEq, Except.ok.injEq] at h1
        obtain ⟨rfl, rfl⟩ := h1
        cases hl2 : Facade.cacheLookup st.cache (Facade.cacheKeyOf cfg2) with
        | some id2 =>
          have hl2' : Facade.cacheLookup
              (st.cache ++ [(Facade.cacheKeyOf cfg1, st.nextId)]) (Facade.cacheKeyOf cfg2)
              = some id2 := Facade.cacheLookup_append_left hl2 _
          rw [hl2'] at h2
          simp only [Prod.mk.injEq, Except.ok.injEq] at h2
          obtain ⟨rfl, rfl⟩ := h2
          have := hWF.1 _ (Facade.cacheLookup_mem hl2)
          omega
        | none =>
          have hl2' : Facade.cacheLookup
              (st.cache ++ [(Facade.cacheKeyOf cfg1, st.nextId)]) (Facade.cacheKeyOf cfg2)
              = none := by
            rw [Facade.cacheLookup_append_right hl2]
            simp [Facade.cacheLookup, hkeyne]
          rw [hl2'] at h2
          cases hc2 : Facade.constructFor cfg2 with
          | error e => rw [hc2] at h2; simp at h2
          | ok c2 =>
            rw [hc2] at h2
            simp only [Prod.mk.injEq, Except.ok.injEq] at h2
            obtain ⟨rfl, rfl⟩ := h2
            omega
  · intro hunknown hlookup
    have hp := hunknown
    simp only [Facade.isKnownProvider, Bool.or_eq_false_iff, decide_eq_false_iff_not] at hp
    obtain ⟨⟨hpd, hpg⟩, hpo⟩ := hp
    rw [Facade.GetClient, hlookup]
    simp [Facade.constructFor, hpd, hpg, hpo]

/-- First witness config for the cache-identity claim. -/
def c8Cfg1 : Facade.Config := ⟨("generic").data, ("k").data, ("u").data⟩

/-- Second witness config: same as `c8Cfg1` except for the API key. -/
def c8Cfg2 : Facade.Config := ⟨("generic").data, ("k2").data, ("u").data⟩

/-- An unknown-provider witness config. -/
def c8Cfg3 : Facade.Config := ⟨("weird").data, ("k").data, ("u").data⟩

/-- The cache state after resolving `c8Cfg1` from the initial state. -/
def c8WSt1 : Facade.CacheState := (Facade.GetClient c8Cfg1 Facade.initState).2

/-- The cache state after then resolving `c8Cfg2`. -/
def c8WSt2 : Facade.CacheState := (Facade.GetClient c8Cfg2 c8WSt1).2

/-- Witness for `c8_cache_identity`: from the empty cache, resolving
`c8Cfg1` then `c8Cfg2` (which differ only in the API key) allocates clients
`0` and `1`, and the unknown provider `weird` fails without touching the
empty cache. -/
theorem c8_cache_identity_witness :
    (c8Cfg2 = c8Cfg1 → (1 : Nat) = 0 ∧ c8WSt2 = c8WSt1)
      ∧ (Facade.differOne c8Cfg1 c8Cfg2 → (0 : Nat) ≠ 1)
      ∧ (Facade.isKnownProvider c8Cfg3.provider = false →
        Facade.cacheLookup Facade.initState.cache (Facade.cacheKeyOf c8Cfg3) = none →
        Facade.GetClient c8Cfg3 Facade.initState
          = (.error .unknownProvider, Facade.initState)) :=
  c8_cache_identity Facade.initState c8Cfg1 c8Cfg2 c8Cfg3 0 1 c8WSt1 c8WSt2
    (by decide) (by decide) (by decide)
